import Mathlib

set_option maxRecDepth 40000

/-!
# Verification of the flureeCrypto secp256k1 signing core

Shallow embedding of the C sources `src/secp256k1.c` and `src/biginteger.c`.
Bytes are modelled as `Nat` values below 256, byte buffers as `List Nat`,
big integers (GMP `mpz_t`) as `Nat`.  The elliptic-curve arithmetic and the
deterministic RFC-6979 nonce generation are delegated by the C code to the
external libsecp256k1 library; those delegated operations are modelled from
the specification (and the standard algorithms it names), each marked
`Modelled from the spec:` in its doc comment.  Everything else is a direct
translation of the repository's own C code.
-/

namespace FlureeCrypto

/-- The secp256k1 field prime `p = 2^256 - 2^32 - 977`. -/
def secp_p : Nat := 2 ^ 256 - 2 ^ 32 - 977

/-- The secp256k1 curve order `n`, as hard-coded byte-for-byte in
`get_modulus` in `src/secp256k1.c`. -/
def secp_n : Nat :=
  0xFFFFFFFFFFFFFFFFFFFFFFFFFFFFFFFEBAAEDCE6AF48A03BBFD25E8CD0364141

/-- X coordinate of the secp256k1 generator point. -/
def secp_gx : Nat :=
  0x79BE667EF9DCBBAC55A06295CE870B07029BFCDB2DCE28D959F2815B16F81798

/-- Y coordinate of the secp256k1 generator point. -/
def secp_gy : Nat :=
  0x483ADA7726A3C4655DA4FBFC0E1108A8FD17B448A68554199C47D08FFB10D4B8

/-- Big-endian value of a byte list (each element is one byte). -/
def beVal (l : List Nat) : Nat := l.foldl (fun a b => 256 * a + b) 0

/-- Fixed-width big-endian byte encoding: `beBytes k v` is the `k`-byte
big-endian encoding of `v mod 256^k`. -/
def beBytes : Nat → Nat → List Nat
  | 0, _ => []
  | k + 1, v => beBytes k (v / 256) ++ [v % 256]

/-- Little-endian minimal base-256 digits of `n`, with explicit fuel
(structural recursion; `fuel ≥ n` suffices). -/
def leBytesAux : Nat → Nat → List Nat
  | 0, _ => []
  | _ + 1, 0 => []
  | f + 1, n + 1 => ((n + 1) % 256) :: leBytesAux f ((n + 1) / 256)

/-- Minimal big-endian byte encoding of a natural number (`[]` for 0),
modelling GMP's `mpz_export` with the most significant byte first. -/
def bytesBE (v : Nat) : List Nat := (leBytesAux v v).reverse

/-- Truncate to a 32-bit word. -/
def w32 (x : Nat) : Nat := x % 4294967296

/-- 32-bit right rotation. -/
def rotr (k x : Nat) : Nat := w32 ((x >>> k) ||| (x <<< (32 - k)))

/-- SHA-256 `Ch` function. -/
def sha_ch (x y z : Nat) : Nat := (x &&& y) ^^^ ((x ^^^ 4294967295) &&& z)

/-- SHA-256 `Maj` function. -/
def sha_maj (x y z : Nat) : Nat := (x &&& y) ^^^ (x &&& z) ^^^ (y &&& z)

/-- SHA-256 big sigma 0. -/
def bsig0 (x : Nat) : Nat := rotr 2 x ^^^ rotr 13 x ^^^ rotr 22 x

/-- SHA-256 big sigma 1. -/
def bsig1 (x : Nat) : Nat := rotr 6 x ^^^ rotr 11 x ^^^ rotr 25 x

/-- SHA-256 small sigma 0. -/
def ssig0 (x : Nat) : Nat := rotr 7 x ^^^ rotr 18 x ^^^ (x >>> 3)

/-- SHA-256 small sigma 1. -/
def ssig1 (x : Nat) : Nat := rotr 17 x ^^^ rotr 19 x ^^^ (x >>> 10)

/-- The 64 SHA-256 round constants. -/
def sha256_K : List Nat :=
  [1116352408, 1899447441, 3049323471, 3921009573, 961987163, 1508970993,
   2453635748, 2870763221, 3624381080, 310598401, 607225278, 1426881987,
   1925078388, 2162078206, 2614888103, 3248222580, 3835390401, 4022224774,
   264347078, 604807628, 770255983, 1249150122, 1555081692, 1996064986,
   2554220882, 2821834349, 2952996808, 3210313671, 3336571891, 3584528711,
   113926993, 338241895, 666307205, 773529912, 1294757372, 1396182291,
   1695183700, 1986661051, 2177026350, 2456956037, 2730485921, 2820302411,
   3259730800, 3345764771, 3516065817, 3600352804, 4094571909, 275423344,
   430227734, 506948616, 659060556, 883997877, 958139571, 1322822218,
   1537002063, 1747873779, 1955562222, 2024104815, 2227730452, 2361852424,
   2428436474, 2756734187, 3204031479, 3329325298]

/-- The SHA-256 initial hash value, eight 32-bit words packed big-endian
into one 256-bit number. -/
def sha256_H0 : Nat :=
  0x6a09e667bb67ae853c6ef372a54ff53a510e527f9b05688c1f83d9ab5be0cd19

/-- One fused SHA-256 round.  The first state component packs the eight
working words `a..h` big-endian into one 256-bit number; the second packs
the sliding 16-word message-schedule window `W[t..t+15]` (`W[t]` most
significant) into one 512-bit number.  The round consumes `W[t]`, applies
the compression step for constant `k`, and extends the schedule by one
word. -/
def sha256_step (s : Nat × Nat) (k : Nat) : Nat × Nat :=
  let st := s.1
  let win := s.2
  let w := win >>> 480
  let a := st >>> 224
  let b := (st >>> 192) &&& 4294967295
  let c := (st >>> 160) &&& 4294967295
  let d := (st >>> 128) &&& 4294967295
  let e := (st >>> 96) &&& 4294967295
  let f := (st >>> 64) &&& 4294967295
  let g := (st >>> 32) &&& 4294967295
  let h := st &&& 4294967295
  let t1 := w32 (h + bsig1 e + sha_ch e f g + k + w)
  let t2 := w32 (bsig0 a + sha_maj a b c)
  let st2 := (w32 (t1 + t2) <<< 224) ||| (a <<< 192) ||| (b <<< 160) |||
    (c <<< 128) ||| (w32 (d + t1) <<< 96) ||| (e <<< 64) ||| (f <<< 32) ||| g
  let nw := w32 (ssig1 ((win >>> 32) &&& 4294967295) +
    ((win >>> 192) &&& 4294967295) + ssig0 ((win >>> 448) &&& 4294967295) + w)
  (st2, ((win &&& 0xffffffffffffffffffffffffffffffffffffffffffffffffffffffffffffffffffffffffffffffffffffffffffffffffffffffffffffffffffffffff) <<< 32) ||| nw)

/-- Word-wise sum mod `2^32` of two packed eight-word states. -/
def sha256_addState (x y : Nat) : Nat :=
  (w32 ((x >>> 224) + (y >>> 224)) <<< 224) |||
  (w32 (((x >>> 192) &&& 4294967295) + ((y >>> 192) &&& 4294967295)) <<< 192) |||
  (w32 (((x >>> 160) &&& 4294967295) + ((y >>> 160) &&& 4294967295)) <<< 160) |||
  (w32 (((x >>> 128) &&& 4294967295) + ((y >>> 128) &&& 4294967295)) <<< 128) |||
  (w32 (((x >>> 96) &&& 4294967295) + ((y >>> 96) &&& 4294967295)) <<< 96) |||
  (w32 (((x >>> 64) &&& 4294967295) + ((y >>> 64) &&& 4294967295)) <<< 64) |||
  (w32 (((x >>> 32) &&& 4294967295) + ((y >>> 32) &&& 4294967295)) <<< 32) |||
  w32 ((x &&& 4294967295) + (y &&& 4294967295))

/-- Compress one 512-bit message block into the packed SHA-256 state. -/
def sha256_compress (H block : Nat) : Nat :=
  sha256_addState H (sha256_K.foldl sha256_step (H, block)).1

/-- Fold the compression function over the `cnt` 512-bit blocks of the
padded message, packed big-endian into the single number `buf`, most
significant block first. -/
def sha256_blocks : Nat → Nat → Nat → Nat
  | 0, H, _ => H
  | m + 1, H, buf =>
    sha256_blocks m (sha256_compress H (buf >>> (512 * m)))
      (buf &&& ((1 <<< (512 * m)) - 1))

/-- SHA-256 of an `L`-byte message given as the packed number
`msg < 256^L`; the result is the 256-bit digest as a number. -/
def sha256N (L msg : Nat) : Nat :=
  let z := (183 - (L % 64)) % 64
  let padded := (msg <<< (8 * (1 + z + 8))) ||| (0x80 <<< (8 * (z + 8))) ||| (8 * L)
  sha256_blocks ((L + 1 + z + 8) / 64) sha256_H0 padded

/-- HMAC-SHA256 with a 32-byte key, all values packed: `key < 256^32` and
`msg < 256^len`; the result is the 256-bit MAC as a number. -/
def hmac_sha256 (key len msg : Nat) : Nat :=
  let k0 := key <<< 256
  let inner := sha256N (64 + len)
    (((k0 ^^^ 0x36363636363636363636363636363636363636363636363636363636363636363636363636363636363636363636363636363636363636363636363636363636) <<< (8 * len)) ||| msg)
  sha256N 96
    (((k0 ^^^ 0x5c5c5c5c5c5c5c5c5c5c5c5c5c5c5c5c5c5c5c5c5c5c5c5c5c5c5c5c5c5c5c5c5c5c5c5c5c5c5c5c5c5c5c5c5c5c5c5c5c5c5c5c5c5c5c5c5c5c5c5c5c5c5c5c) <<< 256) ||| inner)

/-- Modelled from the spec: initialization of the RFC-6979 HMAC-DRBG used by
libsecp256k1's default nonce function
(`secp256k1_rfc6979_hmac_sha256_initialize`), which the C `sign_R_R`
delegates to.  `keydata` is the 64-byte value `key32 ++ msg32`; the state is
the pair `(K, V)` of 32-byte values. -/
def rfc6979_init (keydata : Nat) : Nat × Nat :=
  let V0 : Nat := 0x0101010101010101010101010101010101010101010101010101010101010101
  let K1 := hmac_sha256 0 97 ((V0 <<< 520) ||| keydata)
  let V1 := hmac_sha256 K1 32 V0
  let K2 := hmac_sha256 K1 97 ((V1 <<< 520) ||| (1 <<< 512) ||| keydata)
  let V2 := hmac_sha256 K2 32 V1
  (K2, V2)

/-- Modelled from the spec: the `counter`-th 32-byte output of the RFC-6979
HMAC-DRBG (`secp256k1_rfc6979_hmac_sha256_generate`, skipping `counter`
earlier outputs with the retry re-keying step between outputs). -/
def rfc6979_genSkip : Nat → Nat × Nat → Nat
  | 0, (K, V) => hmac_sha256 K 32 V
  | c + 1, (K, V) =>
    let V1 := hmac_sha256 K 32 V
    let K2 := hmac_sha256 K 33 (V1 <<< 8)
    let V2 := hmac_sha256 K2 32 V1
    rfc6979_genSkip c (K2, V2)

/-- Modelled from the spec: the deterministic RFC-6979-style nonce derived
from the private key and digest (libsecp256k1 `nonce_function_rfc6979` with
key data `key32 ++ msg32`), as a 256-bit number. -/
def rfc6979_nonce (key32 msg32 : Nat) (counter : Nat) : Nat :=
  rfc6979_genSkip counter (rfc6979_init ((key32 <<< 256) ||| msg32))

/-- Modular subtraction on field elements kept below the modulus. -/
def subp (a b : Nat) : Nat := (a + (secp_p - b % secp_p)) % secp_p

/-- Big-endian bit list of width `w`. -/
def bitsBE (w k : Nat) : List Bool := (List.range w).reverse.map k.testBit

/-- Modular exponentiation by 256-bit exponents (square-and-multiply). -/
def powMod (b e m : Nat) : Nat :=
  (bitsBE 256 e).foldl
    (fun acc bit => let s := acc * acc % m; if bit then s * b % m else s) (1 % m)

/-- Modelled from the spec: point doubling on secp256k1 in Jacobian
coordinates (`Z = 0` encodes the point at infinity); part of the delegated
curve arithmetic. -/
def jacDouble (P : Nat × Nat × Nat) : Nat × Nat × Nat :=
  match P with
  | (X, Y, Z) =>
    if Z = 0 then (0, 1, 0) else
    let YY := Y * Y % secp_p
    let S := 4 * X * YY % secp_p
    let M := 3 * X * X % secp_p
    let X3 := subp (M * M % secp_p) (2 * S % secp_p)
    let Y3 := subp (M * subp S X3 % secp_p) (8 * (YY * YY % secp_p) % secp_p)
    (X3, Y3, 2 * Y * Z % secp_p)

/-- Modelled from the spec: mixed addition of a Jacobian point and an affine
point on secp256k1; part of the delegated curve arithmetic. -/
def jacAddMixed (P : Nat × Nat × Nat) (Q : Nat × Nat) : Nat × Nat × Nat :=
  match P, Q with
  | (X1, Y1, Z1), (x2, y2) =>
    if Z1 = 0 then (x2 % secp_p, y2 % secp_p, 1) else
    let Z1Z1 := Z1 * Z1 % secp_p
    let U2 := x2 * Z1Z1 % secp_p
    let S2 := y2 * Z1 % secp_p * Z1Z1 % secp_p
    if U2 = X1 then (if S2 = Y1 then jacDouble P else (0, 1, 0)) else
    let H := subp U2 X1
    let R := subp S2 Y1
    let H2 := H * H % secp_p
    let H3 := H * H2 % secp_p
    let X3 := subp (subp (R * R % secp_p) H3) (2 * X1 * H2 % secp_p)
    let Y3 := subp (R * subp (X1 * H2 % secp_p) X3 % secp_p) (Y1 * H3 % secp_p)
    (X3, Y3, Z1 * H % secp_p)

/-- Modelled from the spec: scalar multiplication `k·P` for an affine base
point, by the double-and-add ladder in Jacobian coordinates. -/
def jacSmul (k : Nat) (P : Nat × Nat) : Nat × Nat × Nat :=
  (bitsBE 256 k).foldl
    (fun acc bit => let d := jacDouble acc; if bit then jacAddMixed d P else d)
    (0, 1, 0)

/-- Modelled from the spec: conversion of a Jacobian point to affine
coordinates; `none` for the point at infinity. -/
def toAffine (P : Nat × Nat × Nat) : Option (Nat × Nat) :=
  match P with
  | (X, Y, Z) =>
    if Z = 0 then none else
    let zi := powMod Z (secp_p - 2) secp_p
    let zi2 := zi * zi % secp_p
    some (X * zi2 % secp_p, Y * zi2 % secp_p * zi % secp_p)

/-- Modelled from the spec: one ECDSA signing attempt with nonce `k`
(libsecp256k1 `secp256k1_ecdsa_sig_sign`): `R = k·G`, `r = R.x mod n`,
`s = k⁻¹(e + r·d) mod n`, low-`s` normalization flipping the parity bit of
the recovery id, overflow bit 2 of the recovery id when `R.x ≥ n`. -/
def ecdsa_sign_attempt (d e k : Nat) : Option (Nat × Nat × Nat) :=
  if k = 0 ∨ secp_n ≤ k then none else
  match toAffine (jacSmul k (secp_gx, secp_gy)) with
  | none => none
  | some (Rx, Ry) =>
    let r := Rx % secp_n
    if r = 0 then none else
    let s := powMod k (secp_n - 2) secp_n * ((e + r * d) % secp_n) % secp_n
    if s = 0 then none else
    let odd := Ry % 2 == 1
    let fin := if secp_n / 2 < s then (secp_n - s, !odd) else (s, odd)
    some (r, fin.1, (if secp_n ≤ Rx then 2 else 0) + (if fin.2 then 1 else 0))

/-- Modelled from the spec: the bounded nonce-retry loop of
`secp256k1_ecdsa_sign_recoverable` (the rejection loop practically never
iterates more than once). -/
def ecdsa_sign_loop : Nat → Nat → Nat → Nat → Nat → Nat →
    Option (Nat × Nat × Nat)
  | 0, _, _, _, _, _ => none
  | fuel + 1, counter, d, e, key, msg =>
    let k := rfc6979_nonce key msg counter
    match ecdsa_sign_attempt d e k with
    | some rs => some rs
    | none => ecdsa_sign_loop fuel (counter + 1) d e key msg

/-- Modelled from the spec: recoverable ECDSA signing over a 32-byte digest
(`secp256k1_ecdsa_sign_recoverable`, delegated by the C `sign_R_R`); returns
`(r, s, recovery_id)` with the digest reduced mod `n` and an invalid secret
key rejected. -/
def ecdsa_sign_recoverable (msg32 priv32 : List Nat) : Option (Nat × Nat × Nat) :=
  let d := beVal priv32
  if d = 0 ∨ secp_n ≤ d then none else
  ecdsa_sign_loop 4 0 d (beVal msg32 % secp_n) d (beVal msg32)

/-- Modelled from the spec: the DER encoding of one INTEGER body (§4.3):
minimal big-endian bytes with a leading `0x00` exactly when the most
significant bit of the first content byte is set. -/
def derInt (v : Nat) : List Nat :=
  let b := if v = 0 then [0] else bytesBE v
  if 128 ≤ b.headD 0 then 0 :: b else b

/-- Modelled from the spec: DER encoding of an `(r, s)` pair (§3/§4.3,
delegated `secp256k1_ecdsa_signature_serialize_der`):
`30 len 02 len_r r 02 len_s s`. -/
def derEncode (r s : Nat) : List Nat :=
  let R := derInt r
  let S := derInt s
  [0x30, 4 + R.length + S.length, 0x02, R.length] ++ R ++ [0x02, S.length] ++ S

/-- `sign_R_R` from `src/secp256k1.c`: checks both inputs are 32 bytes,
produces the recoverable signature, and returns the wire bytes
`(recovery_id + 27) :: DER(r, s)`. -/
def sign_R (msg_hash priv_key : List Nat) : Option (List Nat) :=
  if msg_hash.length = 32 ∧ priv_key.length = 32 then
    match ecdsa_sign_recoverable msg_hash priv_key with
    | none => none
    | some (r, s, recid) => some ((recid + 27) :: derEncode r s)
  else none

/-- Modelled from the spec: compressed serialization of a curve point (§3:
prefix `0x02`/`0x03` for the parity of Y, then the 32-byte X), delegated
`secp256k1_ec_pubkey_serialize` with `SECP256K1_EC_COMPRESSED`. -/
def serializeCompressed (Q : Nat × Nat) : List Nat :=
  (if Q.2 % 2 = 1 then 3 else 2) :: beBytes 32 Q.1

/-- Modelled from the spec: public key derivation `Q = d·G`
(`secp256k1_ec_pubkey_create`), failing when `d` is out of `[1, n−1]`. -/
def pubkey_create (d : Nat) : Option (Nat × Nat) :=
  if d = 0 ∨ secp_n ≤ d then none
  else toAffine (jacSmul d (secp_gx, secp_gy))

/-- `generate_keypair_R` from `src/secp256k1.c`, with the randomly drawn
secret key as a parameter: checks the key is 32 bytes, derives the public
key, and serializes it with the `SECP256K1_EC_COMPRESSED` flag (as the C
code does), returning `(seckey, serialized pubkey)`. -/
def generate_keypair (seckey : List Nat) : Option (List Nat × List Nat) :=
  if seckey.length = 32 then
    match pubkey_create (beVal seckey) with
    | none => none
    | some Q => some (seckey, serializeCompressed Q)
  else none

/-- `valid_private_R` from `src/secp256k1.c` at the big-integer level: the C
code converts the hex input to an `mpz_t` and returns
`private_key ≥ 1 && private_key ≤ modulus` (note: inclusive upper bound). -/
def valid_private (d : Nat) : Bool := decide (1 ≤ d) && decide (d ≤ secp_n)

/-- Value of a list of hex digits, most significant first (the `mpz_set_str`
base-16 conversion used by `valid_private_R` on its hex-string input). -/
def hexVal (digits : List Nat) : Nat := digits.foldl (fun a d => 16 * a + d) 0

/-- `valid_private_R` from `src/secp256k1.c` on a hex-string input, the
string given as its list of hex-digit values (no length check is performed
by the C code). -/
def valid_private_hex (digits : List Nat) : Bool := valid_private (hexVal digits)

/-- Little-endian minimal base-16 digits of `n`, with explicit fuel
(structural recursion; `fuel ≥ n` suffices). -/
def hexDigitsAux : Nat → Nat → List Nat
  | 0, _ => []
  | _ + 1, 0 => []
  | f + 1, n + 1 => ((n + 1) % 16) :: hexDigitsAux f ((n + 1) / 16)

/-- The `mpz_get_str(NULL, 16, bn)` hex digits of `n`, most significant
first: minimal (no leading zero digit) and `[0]` for zero. -/
def natural_hex (n : Nat) : List Nat :=
  if n = 0 then [0] else (hexDigitsAux n n).reverse

/-- `biginteger_to_hex_R` from `src/biginteger.c` at the digit level: the
natural hex representation with a single leading `0` digit prepended when
its length is odd. -/
def biginteger_to_hex (n : Nat) : List Nat :=
  let h := natural_hex n
  if h.length % 2 = 1 then 0 :: h else h

/-- The failure modes of `ecrecover_R` from `src/secp256k1.c`, one per
distinct warning-and-return-0 site. -/
inductive RecErr where
  | invalidLength
  | badRecoveryByte
  | notDER
  | lengthMismatch
  | rTag
  | rTooLong
  | sTag
  | sTooLong
  | parseCompactFailed
  | recoverFailed
  deriving DecidableEq, Repr

instance instDecEqExceptLocal {ε α : Type} [DecidableEq ε] [DecidableEq α] :
    DecidableEq (Except ε α) := fun a b =>
  match a, b with
  | Except.error e, Except.error f =>
    if h : e = f then isTrue (congrArg Except.error h)
    else isFalse (fun hh => h (Except.error.inj hh))
  | Except.ok x, Except.ok y =>
    if h : x = y then isTrue (congrArg Except.ok h)
    else isFalse (fun hh => h (Except.ok.inj hh))
  | Except.error _, Except.ok _ => isFalse (fun hh => Except.noConfusion hh)
  | Except.ok _, Except.error _ => isFalse (fun hh => Except.noConfusion hh)

/-- The parsing phase of `ecrecover_R` from `src/secp256k1.c`, translated
byte for byte.  `sig` is the content of the C stack buffer
`unsigned char signature[71]` after `hex_to_bytes` wrote the decoded hex
input into its prefix; reads beyond the written prefix are reads of
uninitialized memory, which theorems avoid by quantifying over the
buffer's tail.  Note the C code never updates `signature_len` after
declaring it as `sizeof(signature)`, so the length checks below compare
against the constant 71 — exactly as the source does.  Returns the
recovery id and the 64-byte compact `r ‖ s` on success. -/
def ecrecover_parse (sig : List Nat) : Except RecErr (Nat × List Nat) :=
  if (71 : Nat) < 9 then Except.error RecErr.invalidLength else
  let recovery_byte := sig.getD 0 0
  if recovery_byte < 27 ∨ 30 < recovery_byte then Except.error RecErr.badRecoveryByte else
  let recovery_id := recovery_byte - 27
  if sig.getD 1 0 ≠ 48 then Except.error RecErr.notDER else
  let total_length := sig.getD 2 0
  if total_length + 3 ≠ 71 then Except.error RecErr.lengthMismatch else
  if sig.getD 3 0 ≠ 2 then Except.error RecErr.rTag else
  let r_len := sig.getD 4 0
  if 32 < r_len then Except.error RecErr.rTooLong else
  let r_bytes := List.replicate (32 - r_len) 0 ++ (sig.drop 5).take r_len
  let s_off := 5 + r_len
  if sig.getD s_off 0 ≠ 2 then Except.error RecErr.sTag else
  let s_len := sig.getD (s_off + 1) 0
  if 32 < s_len then Except.error RecErr.sTooLong else
  let s_bytes := List.replicate (32 - s_len) 0 ++ (sig.drop (s_off + 2)).take s_len
  Except.ok (recovery_id, r_bytes ++ s_bytes)

/-- Modelled from the spec: the delegated public-key recovery math of
`secp256k1_ecdsa_recover` (§4.5 step 5): reconstruct the candidate point
`R` from `r` and the recovery id (order offset for ids 2/3, square root
with the parity selected by the id's low bit), then
`Q = r⁻¹·(s·R − e·G)`; `none` on any failure (zero scalar, `x` out of
field, no square root, point at infinity). -/
def recoverPubkey (r s recid e : Nat) : Option (Nat × Nat) :=
  if r = 0 ∨ s = 0 then none else
  let x := r + (if 2 ≤ recid then secp_n else 0)
  if secp_p ≤ x then none else
  let c := (x * x % secp_p * x % secp_p + 7) % secp_p
  let y0 := powMod c ((secp_p + 1) / 4) secp_p
  if y0 * y0 % secp_p ≠ c then none else
  let y := if y0 % 2 = recid % 2 then y0 else secp_p - y0
  let sR := jacSmul s (x, y)
  let T := match toAffine (jacSmul ((secp_n - e % secp_n) % secp_n) (secp_gx, secp_gy)) with
    | none => sR
    | some P => jacAddMixed sR P
  match toAffine T with
  | none => none
  | some Taff => toAffine (jacSmul (powMod r (secp_n - 2) secp_n) Taff)

/-- `ecrecover_R` from `src/secp256k1.c` end to end: the parse phase above,
then the delegated compact-signature parse
(`secp256k1_ecdsa_recoverable_signature_parse_compact` fails when `r` or
`s` overflows the curve order), the delegated recovery, and compressed
serialization of the recovered key. -/
def ecrecover_full (sig hash : List Nat) : Except RecErr (List Nat) :=
  match ecrecover_parse sig with
  | Except.error e => Except.error e
  | Except.ok (recid, compact) =>
    let r := beVal (compact.take 32)
    let s := beVal (compact.drop 32)
    if secp_n ≤ r ∨ secp_n ≤ s then Except.error RecErr.parseCompactFailed else
    match recoverPubkey r s recid (beVal hash % secp_n) with
    | none => Except.error RecErr.recoverFailed
    | some Q => Except.ok (serializeCompressed Q)

/-- The 32-byte digest with value 47, a concrete test input. -/
def c1_msg : List Nat := List.replicate 31 0 ++ [47]

/-- The 32-byte private key with value 1, a concrete test input. -/
def c1_priv : List Nat := List.replicate 31 0 ++ [1]

/-- The wire signature produced by `sign_R c1_msg c1_priv`: 70 bytes, with
DER SEQUENCE content length 67 (`r` needs only 31 bytes). -/
def c1_wire : List Nat :=
  [27, 48, 67, 2, 31, 77, 1, 7, 95, 223, 58, 50, 5, 63, 255, 146, 102, 223,
   54, 229, 25, 205, 167, 123, 79, 123, 222, 27, 165, 224, 151, 121, 60, 138,
   125, 53, 2, 32, 79, 11, 41, 78, 189, 228, 230, 140, 232, 211, 153, 229,
   74, 213, 135, 6, 209, 172, 28, 187, 168, 102, 239, 132, 211, 216, 78, 195,
   136, 91, 201, 110]

/-- A 67-byte wire signature whose declared DER SEQUENCE length (64)
exactly matches its actual remaining length (`64 + 3 = 67`): recovery byte
`0x1b`, then `30 40 02 1e <30 r bytes> 02 1e <30 s bytes>`. -/
def c4_sig : List Nat :=
  [27, 48, 64, 2, 30] ++ (1 :: List.replicate 29 17) ++
    ([2, 30] ++ (1 :: List.replicate 29 34))

/-- A 71-byte wire signature whose DER integer `r` is the canonical 33-byte
encoding of `2^255` (leading `0x00` because the high bit of the first
content byte is set) and whose `s` is the 31-byte encoding of `2^240`:
recovery byte `0x1b`, then `30 44 02 21 00 80 <31 zeros> 02 1f 01 <30
zeros>`. -/
def c6_sig : List Nat :=
  [27, 48, 68, 2, 33, 0, 128] ++ List.replicate 31 0 ++
    ([2, 31, 1] ++ List.replicate 30 0)

/-- A structurally valid 71-byte wire signature with recovery byte `0x1d`:
`30 44 02 20 <32 r bytes> 02 20 <32 s bytes>` with DER-minimal positive
integers. -/
def c7_good : List Nat :=
  [29, 48, 68, 2, 32] ++ (112 :: List.replicate 31 17) ++
    ([2, 32] ++ (96 :: List.replicate 31 34))

/-- The compact 64-byte `r ‖ s` that `ecrecover_parse` extracts from
`c7_good`. -/
def c7_compact : List Nat :=
  (112 :: List.replicate 31 17) ++ (96 :: List.replicate 31 34)

theorem s47_kd : ((1 : Nat) <<< 256) ||| 47 =
    115792089237316195423570985008687907853269984665640564039457584007913129639983 := by
  decide

theorem s47_x1 :
    ((0x0101010101010101010101010101010101010101010101010101010101010101 : Nat) <<< 520) |||
      115792089237316195423570985008687907853269984665640564039457584007913129639983 =
    1558606398545025440777014702142747663316716942674016990006264006802623701520427649026960028844219636882060072007282039306391579759171353931294685375760170875048086076692692868839138988946705741294489633482099559764730210973644750895 := by
  decide

theorem s47_h1 : hmac_sha256 0 97
    1558606398545025440777014702142747663316716942674016990006264006802623701520427649026960028844219636882060072007282039306391579759171353931294685375760170875048086076692692868839138988946705741294489633482099559764730210973644750895 =
    85035975775545996119304996209160972254635783945680474670474556925499113696463 := by
  decide

theorem s47_h2 : hmac_sha256
    85035975775545996119304996209160972254635783945680474670474556925499113696463 32
    0x0101010101010101010101010101010101010101010101010101010101010101 =
    55043531308727613564780894591888806345167963956906574931553010032121581970228 := by
  decide

theorem s47_x3 :
    ((55043531308727613564780894591888806345167963956906574931553010032121581970228 : Nat) <<< 520) |||
      ((1 : Nat) <<< 512) |||
      115792089237316195423570985008687907853269984665640564039457584007913129639983 =
    188931352466739639556361195147502407714761382339237787615693526315082362502734638994331277128696084926071731526695844135582408099639193549038351294119923311266370128099171831129630458129861538324488629324888553737550395171350626959407 := by
  decide

theorem s47_h3 : hmac_sha256
    85035975775545996119304996209160972254635783945680474670474556925499113696463 97
    188931352466739639556361195147502407714761382339237787615693526315082362502734638994331277128696084926071731526695844135582408099639193549038351294119923311266370128099171831129630458129861538324488629324888553737550395171350626959407 =
    83675164734034378183394025004493639649169225437782996740101740610088865304626 := by
  decide

theorem s47_h4 : hmac_sha256
    83675164734034378183394025004493639649169225437782996740101740610088865304626 32
    55043531308727613564780894591888806345167963956906574931553010032121581970228 =
    41177452006747544959003889760631469184384168670244952926652367823448895658353 := by
  decide

theorem s47_h5 : hmac_sha256
    83675164734034378183394025004493639649169225437782996740101740610088865304626 32
    41177452006747544959003889760631469184384168670244952926652367823448895658353 =
    36273310182693865325263911891467328667124152072804958139627865622709546922196 := by
  decide

theorem s47_init : rfc6979_init
    115792089237316195423570985008687907853269984665640564039457584007913129639983 =
    (83675164734034378183394025004493639649169225437782996740101740610088865304626,
     41177452006747544959003889760631469184384168670244952926652367823448895658353) := by
  rw [rfc6979_init]
  simp only [s47_x1, s47_h1, s47_h2, s47_x3, s47_h3, s47_h4]

theorem s47_nonce : rfc6979_nonce 1 47 0 =
    36273310182693865325263911891467328667124152072804958139627865622709546922196 := by
  rewrite [rfc6979_nonce, s47_kd, s47_init]
  exact s47_h5

theorem s47_smul : jacSmul
    36273310182693865325263911891467328667124152072804958139627865622709546922196
    (secp_gx, secp_gy) =
    (51611116246857690053606824947782197459224775443362964050471146164800290632905,
     88178588448196117998484659315782209293512768077967993865606137133084286753002,
     57862896184379954032271977540832392612572089929149253385053126064088203000545) := by
  decide

theorem s47_aff : toAffine
    (51611116246857690053606824947782197459224775443362964050471146164800290632905,
     88178588448196117998484659315782209293512768077967993865606137133084286753002,
     57862896184379954032271977540832392612572089929149253385053126064088203000545) =
    some (136054324550407157970153134159393863877158701329048430641961360764456041781,
      102867121096856936542967435845054272142141327176867730534248446877108584604352) := by
  decide

theorem s47_powk : powMod
    36273310182693865325263911891467328667124152072804958139627865622709546922196
    (secp_n - 2) secp_n =
    76787099296637598164987693946544133196107841209636068325718760300948001770378 := by
  decide

theorem s47_attempt : ecdsa_sign_attempt 1 47
    36273310182693865325263911891467328667124152072804958139627865622709546922196 =
    some (136054324550407157970153134159393863877158701329048430641961360764456041781,
      35752435450264852725361144100605089792630419878379484266359624542005428472174, 0) := by
  rw [ecdsa_sign_attempt,
    if_neg (by decide :
      ¬((36273310182693865325263911891467328667124152072804958139627865622709546922196 : Nat) = 0 ∨
        secp_n ≤ 36273310182693865325263911891467328667124152072804958139627865622709546922196)),
    s47_smul, s47_aff]
  simp only [s47_powk]
  decide

theorem s47_loop : ecdsa_sign_loop 4 0 1 47 1 47 =
    some (136054324550407157970153134159393863877158701329048430641961360764456041781,
      35752435450264852725361144100605089792630419878379484266359624542005428472174, 0) := by
  rw [ecdsa_sign_loop]
  simp only [s47_nonce, s47_attempt]

theorem s47_recov : ecdsa_sign_recoverable c1_msg c1_priv =
    some (136054324550407157970153134159393863877158701329048430641961360764456041781,
      35752435450264852725361144100605089792630419878379484266359624542005428472174, 0) := by
  rw [ecdsa_sign_recoverable]
  simp only [show beVal c1_priv = 1 by decide, show beVal c1_msg = 47 by decide]
  rw [if_neg (by decide : ¬((1 : Nat) = 0 ∨ secp_n ≤ 1))]
  rw [show (47 : Nat) % secp_n = 47 by decide]
  exact s47_loop

/-- Full evaluation of `sign_R` at the concrete inputs `c1_msg`, `c1_priv`. -/
theorem s47_sign : sign_R c1_msg c1_priv = some c1_wire := by
  rw [sign_R, if_pos (by decide : c1_msg.length = 32 ∧ c1_priv.length = 32), s47_recov]
  decide

theorem beBytes_length : ∀ k v, (beBytes k v).length = k := by
  intro k
  induction k with
  | zero => intro v; rfl
  | succ k ih => intro v; simp [beBytes, ih]

/-- When the recovery byte is in `0x1B..0x1E`, the tag byte is `0x30` and
the declared length does not satisfy `total_length + 3 = 71`, the parse
stops with `lengthMismatch`, reading only the first three buffer bytes. -/
theorem parse_lengthMismatch (sig : List Nat) (h0 : 27 ≤ sig.getD 0 0)
    (h1 : sig.getD 0 0 ≤ 30) (h2 : sig.getD 1 0 = 48)
    (h3 : sig.getD 2 0 + 3 ≠ 71) :
    ecrecover_parse sig = Except.error RecErr.lengthMismatch := by
  simp only [ecrecover_parse]
  rw [if_neg (by decide : ¬((71 : Nat) < 9)),
    if_neg (by omega : ¬(sig.getD 0 0 < 27 ∨ 30 < sig.getD 0 0)),
    if_neg (by omega : ¬(sig.getD 1 0 ≠ 48)), if_pos h3]

/-- When the recovery byte is in `0x1B..0x1E`, the parse never fails with
`badRecoveryByte`, whatever the rest of the buffer holds. -/
theorem parse_not_badRecovery (sig : List Nat) (h0 : 27 ≤ sig.getD 0 0)
    (h1 : sig.getD 0 0 ≤ 30) :
    ecrecover_parse sig ≠ Except.error RecErr.badRecoveryByte := by
  simp only [ecrecover_parse]
  rw [if_neg (by decide : ¬((71 : Nat) < 9)),
    if_neg (by omega : ¬(sig.getD 0 0 < 27 ∨ 30 < sig.getD 0 0))]
  split <;> try simp
  split <;> try simp
  split <;> try simp
  split <;> try simp
  split <;> try simp
  split <;> simp

theorem ite_sum_le (c1 c2 : Prop) [Decidable c1] [Decidable c2] :
    (if c1 then (2 : Nat) else 0) + (if c2 then 1 else 0) ≤ 3 := by
  split <;> split <;> omega

theorem attempt_recid_le (d e k r s recid : Nat)
    (h : ecdsa_sign_attempt d e k = some (r, s, recid)) : recid ≤ 3 := by
  simp only [ecdsa_sign_attempt] at h
  split at h
  · exact absurd h (by simp)
  · split at h
    · exact absurd h (by simp)
    · split at h
      · exact absurd h (by simp)
      · split at h
        · exact absurd h (by simp)
        · simp only [Option.some.injEq, Prod.mk.injEq] at h
          obtain ⟨-, -, hr⟩ := h
          rw [← hr]
          exact ite_sum_le _ _

theorem loop_attempt (d e key msg : Nat) :
    ∀ fuel counter out, ecdsa_sign_loop fuel counter d e key msg = some out →
      ∃ k, ecdsa_sign_attempt d e k = some out := by
  intro fuel
  induction fuel with
  | zero => intro c out h; simp [ecdsa_sign_loop] at h
  | succ f ih =>
    intro c out h
    simp only [ecdsa_sign_loop] at h
    split at h
    · next rs heq =>
      refine ⟨rfc6979_nonce key msg c, ?_⟩
      rw [heq]
      exact h
    · exact ih (c + 1) out h

theorem recov_recid_le (m p : List Nat) (r s recid : Nat)
    (h : ecdsa_sign_recoverable m p = some (r, s, recid)) : recid ≤ 3 := by
  simp only [ecdsa_sign_recoverable] at h
  split at h
  · exact absurd h (by simp)
  · obtain ⟨k, hk⟩ := loop_attempt _ _ _ _ 4 0 (r, s, recid) h
    exact attempt_recid_le _ _ _ _ _ _ hk

theorem sign_R_shape (m p wire : List Nat) (h : sign_R m p = some wire) :
    ∃ r s recid, ecdsa_sign_recoverable m p = some (r, s, recid) ∧
      wire = (recid + 27) :: derEncode r s := by
  simp only [sign_R] at h
  split at h
  · split at h
    · exact absurd h (by simp)
    · next r s recid heq =>
      exact ⟨r, s, recid, heq, (Option.some.inj h).symm⟩
  · exact absurd h (by simp)

theorem hexAux_foldr : ∀ f n, n ≤ f →
    (hexDigitsAux f n).foldr (fun d a => 16 * a + d) 0 = n := by
  intro f
  induction f with
  | zero =>
    intro n hn
    have h0 : n = 0 := Nat.le_zero.mp hn
    subst h0
    rfl
  | succ f ih =>
    intro n hn
    match n with
    | 0 => rfl
    | m + 1 =>
      have hdiv : (m + 1) / 16 ≤ f := by
        have := Nat.div_lt_self (Nat.succ_pos m) (by omega : 1 < 16)
        omega
      simp only [hexDigitsAux, List.foldr_cons]
      rw [ih ((m + 1) / 16) hdiv]
      exact Nat.div_add_mod (m + 1) 16

theorem hexAux_lt : ∀ f n, ∀ d ∈ hexDigitsAux f n, d < 16 := by
  intro f
  induction f with
  | zero => intro n d hd; simp [hexDigitsAux] at hd
  | succ f ih =>
    intro n d hd
    match n with
    | 0 => simp [hexDigitsAux] at hd
    | m + 1 =>
      simp only [hexDigitsAux, List.mem_cons] at hd
      rcases hd with h | h
      · rw [h]; exact Nat.mod_lt _ (by omega)
      · exact ih _ _ h

theorem hexVal_reverse (l : List Nat) :
    hexVal l.reverse = l.foldr (fun d a => 16 * a + d) 0 := by
  simp [hexVal, List.foldl_reverse]

theorem hexVal_natural (n : Nat) : hexVal (natural_hex n) = n := by
  by_cases h : n = 0
  · subst h; rfl
  · simp only [natural_hex, if_neg h]
    rw [hexVal_reverse]
    exact hexAux_foldr n n le_rfl

theorem hexVal_cons_zero (l : List Nat) : hexVal (0 :: l) = hexVal l := by
  simp [hexVal]

theorem natural_hex_lt (n : Nat) : ∀ d ∈ natural_hex n, d < 16 := by
  intro d hd
  by_cases h : n = 0
  · subst h; simp [natural_hex] at hd; omega
  · simp only [natural_hex, if_neg h, List.mem_reverse] at hd
    exact hexAux_lt n n d hd

/-- C9: for every non-negative integer input, `biginteger_to_hex_R` returns
base-16 digits whose value is the input, of even length, with a single
leading `0` digit prepended exactly when the natural (minimal) hex
representation has odd length. -/
theorem C9_bigint_to_hex_even (n : Nat) :
    hexVal (biginteger_to_hex n) = n ∧
    (biginteger_to_hex n).length % 2 = 0 ∧
    (biginteger_to_hex n = 0 :: natural_hex n ↔ (natural_hex n).length % 2 = 1) ∧
    ∀ d ∈ biginteger_to_hex n, d < 16 := by
  refine ⟨?_, ?_, ⟨?_, ?_⟩, ?_⟩
  · by_cases h : (natural_hex n).length % 2 = 1
    · rw [biginteger_to_hex, if_pos h, hexVal_cons_zero, hexVal_natural]
    · rw [biginteger_to_hex, if_neg h, hexVal_natural]
  · by_cases h : (natural_hex n).length % 2 = 1
    · rw [biginteger_to_hex, if_pos h]
      simp only [List.length_cons]
      omega
    · rw [biginteger_to_hex, if_neg h]
      omega
  · intro heq
    by_contra hodd
    rw [biginteger_to_hex, if_neg hodd] at heq
    have := congrArg List.length heq
    simp at this
  · intro hodd
    rw [biginteger_to_hex, if_pos hodd]
  · intro d hd
    by_cases h : (natural_hex n).length % 2 = 1
    · rw [biginteger_to_hex, if_pos h] at hd
      rcases List.mem_cons.mp hd with h0 | h0
      · omega
      · exact natural_hex_lt n d h0
    · rw [biginteger_to_hex, if_neg h] at hd
      exact natural_hex_lt n d hd

/-- C2: boundary evaluation of `valid_private_R`.  The C code accepts the
curve order `n` itself (its comparison is `private_key <= modulus`), so the
value `n` — which the claim says must be rejected — is reported valid. -/
theorem C2_validity_boundary : valid_private 0 = false ∧
    valid_private 1 = true ∧ valid_private (secp_n - 1) = true ∧
    valid_private secp_n = true ∧ valid_private (secp_n + 1) = false := by
  decide

/-- C3: `valid_private_R` performs no length check at all on its hex-string
input: the 1-byte input `0x01` (hex string "01") and the single hex digit
"1" are both accepted, although the claim requires every input shorter than
32 bytes to be rejected. -/
theorem C3_no_length_check : valid_private_hex [0, 1] = true ∧
    valid_private_hex [1] = true := by
  decide

/-- C4: the DER total-length gate of `ecrecover_R` compares the declared
SEQUENCE length against the constant buffer size 71 instead of the actual
signature length: `c4_sig` is a 67-byte wire signature whose declared
length 64 exactly matches its actual remaining length (64 + 3 = 67), yet
the parse rejects it with `lengthMismatch`, whatever uninitialized bytes
follow it in the 71-byte buffer. -/
theorem C4_length_gate_uses_buffer_size :
    c4_sig.getD 2 0 + 3 = c4_sig.length ∧
    ∀ junk : List Nat, ecrecover_parse (c4_sig ++ junk) =
      Except.error RecErr.lengthMismatch := by
  refine ⟨by decide, fun junk => ?_⟩
  have e0 : (c4_sig ++ junk).getD 0 0 = 27 := by
    rw [List.getD_append _ _ _ _ (by decide)]; decide
  have e1 : (c4_sig ++ junk).getD 1 0 = 48 := by
    rw [List.getD_append _ _ _ _ (by decide)]; decide
  have e2 : (c4_sig ++ junk).getD 2 0 = 64 := by
    rw [List.getD_append _ _ _ _ (by decide)]; decide
  exact parse_lengthMismatch _ (by omega) (by omega) e1 (by omega)

/-- C6: the DER integer gate of `ecrecover_R` rejects any integer whose
declared length exceeds 32 bytes without stripping a leading zero byte:
`c6_sig` carries `r` as the canonical 33-byte encoding of `2^255` (leading
`0x00` required by DER since the high bit is set), passes the total-length
gate (68 + 3 = 71), and is rejected with `rTooLong` although the claim
requires it to be accepted. -/
theorem C6_leading_zero_rejected :
    (c6_sig.drop 5).take 33 = derInt (2 ^ 255) ∧
    c6_sig.getD 2 0 + 3 = 71 ∧
    ecrecover_parse c6_sig = Except.error RecErr.rTooLong := by
  refine ⟨by decide, by decide, by decide⟩

/-- C7: the recovery-byte gate of `ecrecover_R`: any first byte outside
`0x1B..0x1E` fails with `badRecoveryByte`; any first byte inside the range,
on a buffer whose remaining DER gates pass, parses successfully with
`recovery_id = byte − 0x1B`. -/
theorem C7_recovery_byte_gate :
    (∀ sig : List Nat, (sig.getD 0 0 < 27 ∨ 30 < sig.getD 0 0) →
      ecrecover_parse sig = Except.error RecErr.badRecoveryByte) ∧
    (∀ sig : List Nat, 27 ≤ sig.getD 0 0 → sig.getD 0 0 ≤ 30 →
      sig.getD 1 0 = 48 → sig.getD 2 0 + 3 = 71 → sig.getD 3 0 = 2 →
      sig.getD 4 0 ≤ 32 → sig.getD (5 + sig.getD 4 0) 0 = 2 →
      sig.getD (5 + sig.getD 4 0 + 1) 0 ≤ 32 →
      ecrecover_parse sig = Except.ok (sig.getD 0 0 - 27,
        (List.replicate (32 - sig.getD 4 0) 0 ++ (sig.drop 5).take (sig.getD 4 0)) ++
        (List.replicate (32 - sig.getD (5 + sig.getD 4 0 + 1) 0) 0 ++
          (sig.drop (5 + sig.getD 4 0 + 2)).take (sig.getD (5 + sig.getD 4 0 + 1) 0)))) := by
  constructor
  · intro sig h
    simp only [ecrecover_parse]
    rw [if_neg (by decide : ¬((71 : Nat) < 9)), if_pos h]
  · intro sig h0 h1 h2 h3 h4 h5 h6 h7
    simp only [ecrecover_parse]
    rw [if_neg (by decide : ¬((71 : Nat) < 9)),
      if_neg (by omega : ¬(sig.getD 0 0 < 27 ∨ 30 < sig.getD 0 0)),
      if_neg (by omega : ¬(sig.getD 1 0 ≠ 48)),
      if_neg (by omega : ¬(sig.getD 2 0 + 3 ≠ 71)),
      if_neg (by omega : ¬(sig.getD 3 0 ≠ 2)),
      if_neg (by omega : ¬(32 < sig.getD 4 0)),
      if_neg (by omega : ¬(sig.getD (5 + sig.getD 4 0) 0 ≠ 2)),
      if_neg (by omega : ¬(32 < sig.getD (5 + sig.getD 4 0 + 1) 0))]

/-- Witness for C7 at concrete inputs: the one-byte buffer `[0x1A]` fails
the gate, and the structurally valid `c7_good` (first byte `0x1D`) parses
with recovery id 2. -/
theorem C7_recovery_byte_gate_witness :
    ecrecover_parse [26] = Except.error RecErr.badRecoveryByte ∧
    ecrecover_parse c7_good = Except.ok (2, c7_compact) := by
  constructor
  · exact C7_recovery_byte_gate.1 [26] (by decide)
  · rw [C7_recovery_byte_gate.2 c7_good (by decide) (by decide) (by decide)
      (by decide) (by decide) (by decide) (by decide) (by decide)]
    decide

/-- C1: the signed-then-recovered round trip fails on the code.  At the
concrete private key 1 and digest 47, `sign_R` produces the 70-byte wire
signature `c1_wire` (its `r` needs only 31 bytes, so the DER content
length is 67), and `ecrecover_R` rejects that very signature with a
length-mismatch error — instead of returning the compressed public key —
because its total-length gate compares against the constant buffer size
71.  The tail quantifier covers every content of the uninitialized rest of
the 71-byte parse buffer. -/
theorem C1_roundtrip_fails :
    sign_R c1_msg c1_priv = some c1_wire ∧
    ∀ junk : List Nat, ecrecover_full (c1_wire ++ junk) c1_msg =
      Except.error RecErr.lengthMismatch := by
  refine ⟨s47_sign, fun junk => ?_⟩
  have e1 : (c1_wire ++ junk).getD 1 0 = 48 := by
    rw [List.getD_append _ _ _ _ (by decide)]; decide
  have e0 : (c1_wire ++ junk).getD 0 0 = 27 := by
    rw [List.getD_append _ _ _ _ (by decide)]; decide
  have e2 : (c1_wire ++ junk).getD 2 0 = 67 := by
    rw [List.getD_append _ _ _ _ (by decide)]; decide
  have hp := parse_lengthMismatch (c1_wire ++ junk) (by omega) (by omega) e1 (by omega)
  simp only [ecrecover_full, hp]

/-- C5: `generate_keypair_R` returns the 32-byte secret key together with a
33-byte public key: the C code passes `SECP256K1_EC_COMPRESSED` to the
serializer (despite its own comments), so the claimed 65-byte uncompressed
key is never produced. -/
theorem C5_keypair_pubkey_compressed (sk skOut pk : List Nat)
    (h : generate_keypair sk = some (skOut, pk)) :
    skOut.length = 32 ∧ pk.length = 33 := by
  simp only [generate_keypair] at h
  split at h
  · split at h
    · exact absurd h (by simp)
    · next Q heq =>
      simp only [Option.some.injEq, Prod.mk.injEq] at h
      obtain ⟨h1, h2⟩ := h
      constructor
      · rw [← h1]; assumption
      · rw [← h2]
        simp [serializeCompressed, beBytes_length]
  · exact absurd h (by simp)

/-- The compressed public key produced by `generate_keypair` for the secret
key 1: `0x02` followed by the generator's X coordinate. -/
def c5_pk : List Nat :=
  [2, 121, 190, 102, 126, 249, 220, 187, 172, 85, 160, 98, 149, 206, 135,
   11, 7, 2, 155, 252, 219, 45, 206, 40, 217, 89, 242, 129, 91, 22, 248,
   23, 152]

/-- Witness for C5 at the concrete secret key 1. -/
theorem C5_keypair_pubkey_compressed_witness :
    c1_priv.length = 32 ∧ c5_pk.length = 33 :=
  C5_keypair_pubkey_compressed c1_priv c1_priv c5_pk (by decide)

/-- C8: signing is deterministic — the embedding of `sign_R_R` (whose nonce
is the RFC-6979 derivation from the key and digest, with no random input)
is a pure function, so equal inputs give byte-identical wire signatures. -/
theorem C8_sign_deterministic (m p m2 p2 : List Nat) (hm : m = m2)
    (hp : p = p2) : sign_R m p = sign_R m2 p2 := by
  rw [hm, hp]

/-- Witness for C8 at the concrete key 1 and digest 47. -/
theorem C8_sign_deterministic_witness :
    sign_R c1_msg c1_priv = sign_R c1_msg c1_priv :=
  C8_sign_deterministic c1_msg c1_priv c1_msg c1_priv rfl rfl

/-- C10: every wire signature produced by `sign_R` starts with
`recovery_id + 27` for a recovery id in `{0, 1, 2, 3}`, so its first byte
lies in `0x1B..0x1E` and the recovery-byte gate of `ecrecover_R` never
rejects it, whatever the uninitialized tail of the parse buffer holds. -/
theorem C10_sign_output_passes_gate (msg priv wire : List Nat)
    (h : sign_R msg priv = some wire) :
    ∃ recid, recid ≤ 3 ∧ wire.headD 0 = recid + 27 ∧
      ∀ junk : List Nat, ecrecover_parse (wire ++ junk) ≠
        Except.error RecErr.badRecoveryByte := by
  obtain ⟨r, s, recid, hrec, hw⟩ := sign_R_shape msg priv wire h
  have hle := recov_recid_le msg priv r s recid hrec
  refine ⟨recid, hle, by rw [hw]; rfl, fun junk => ?_⟩
  have hgd : (wire ++ junk).getD 0 0 = recid + 27 := by rw [hw]; rfl
  exact parse_not_badRecovery _ (by omega) (by omega)

/-- Witness for C10 at the concrete key 1 and digest 47. -/
theorem C10_sign_output_passes_gate_witness :
    ∃ recid, recid ≤ 3 ∧ c1_wire.headD 0 = recid + 27 ∧
      ∀ junk : List Nat, ecrecover_parse (c1_wire ++ junk) ≠
        Except.error RecErr.badRecoveryByte :=
  C10_sign_output_passes_gate c1_msg c1_priv c1_wire s47_sign

end FlureeCrypto
